import Mathlib

/-!
Verification of the simwrapper sqlite-map / aequilibrae resource-governed
feature-extraction pipeline.

Shallow embedding of:
  * src/plugins/aequilibrae/utils.ts   (simplifyCoordinates, getUsedColumns, ...)
  * src/plugins/sqlite-map/db.ts       (performJoin, fetchGeoJSONFeatures,
                                        openDb, releaseDb, join cache)
  * src/plugins/sqlite-map/loader.ts   (acquireLoadingSlot, mapLoadingComplete,
                                        initSql, releaseSql)
  * src/plugins/sqlite-map/styling.ts  (buildColorEncoder, applyQuantitativeMapping)
  * getMemoryLimits                    (loader helper)

JavaScript numbers are modelled as exact rationals (ℚ); NaN is modelled as
`Option.none` where it can arise.  Stateful module-level caches are modelled
as explicit state records threaded through the operations.
-/

namespace SimWrapper

/-! ## JavaScript value model -/

/-- A JavaScript value as it appears in database rows and style configs.
`undefined` is modelled as `Option.none` at access sites, so it is not a
constructor here. -/
inductive JsVal where
  | null
  | num (q : ℚ)
  | str (s : String)
  | bool (b : Bool)
  deriving DecidableEq, Repr

/-- Association-list `get`, modelling JS `Map.get` / property lookup.
Returns `none` for a missing key (JS `undefined`). -/
def getA {α β : Type} [DecidableEq α] : List (α × β) → α → Option β
  | [], _ => none
  | (k', v) :: rest, k => if k' = k then some v else getA rest k

/-- Association-list `set`, modelling JS `Map.set` / property assignment:
replaces the value in place if the key exists, otherwise appends. -/
def setA {α β : Type} [DecidableEq α] : List (α × β) → α → β → List (α × β)
  | [], k, v => [(k, v)]
  | (k', v') :: rest, k, v =>
      if k' = k then (k, v) :: rest else (k', v') :: setA rest k v

/-- Association-list `delete`, modelling JS `Map.delete`. -/
def delA {α β : Type} [DecidableEq α] (m : List (α × β)) (k : α) : List (α × β) :=
  m.filter (fun pr => pr.1 ≠ k)

theorem getA_setA_self {α β : Type} [DecidableEq α] (m : List (α × β)) (k : α) (v : β) :
    getA (setA m k v) k = some v := by
  induction m with
  | nil => simp [setA, getA]
  | cons hd tl ih =>
    by_cases h : hd.1 = k
    · simp [setA, getA, h]
    · simp only [setA, h, if_false]
      simpa [getA, h] using ih

theorem getA_delA_self {α β : Type} [DecidableEq α] (m : List (α × β)) (k : α) :
    getA (delA m k) k = none := by
  induction m with
  | nil => rfl
  | cons hd tl ih =>
    by_cases h : hd.1 = k
    · simpa [delA, List.filter_cons, h] using ih
    · simpa [delA, List.filter_cons, h, getA] using ih

/-! ### Computable string helpers

Several core `String` functions (`trim`, `toLower`, `replace`) are defined
by well-founded recursion over byte positions and do not reduce inside the
kernel, so the embedding uses these equivalent character-list versions. -/

/-- JS `String.prototype.trim`: strip whitespace from both ends. -/
def jsTrim (s : String) : String :=
  String.mk (((s.toList.dropWhile Char.isWhitespace).reverse.dropWhile
    Char.isWhitespace).reverse)

/-- JS `toLowerCase` (ASCII). -/
def toLowerStr (s : String) : String :=
  String.mk (s.toList.map Char.toLower)

/-- JS `s.replace(c, rep)` with a plain string pattern: first occurrence
only. -/
def replaceFirstChar (l : List Char) (c : Char) (rep : List Char) : List Char :=
  match l with
  | [] => []
  | a :: rest => if a = c then rep ++ rest else a :: replaceFirstChar rest c rep

/-- JS `s.replace(/c/g, rep)`: every occurrence. -/
def replaceAllChar (l : List Char) (c : Char) (rep : List Char) : List Char :=
  match l with
  | [] => []
  | a :: rest => (if a = c then rep else [a]) ++ replaceAllChar rest c rep

/-! ## Coordinate rounding — aequilibrae/utils.ts `simplifyCoordinates` -/

/-- JS `Math.round`: rounds half toward +∞ (`⌊x + 1/2⌋`). -/
def jsRound (q : ℚ) : ℤ := ⌊q + 1/2⌋

/-- One precision-rounding step: `Math.round(value * factor) / factor`
with `factor = 10^p`. -/
def roundPrec (p : ℕ) (q : ℚ) : ℚ := (jsRound (q * 10 ^ p) : ℚ) / 10 ^ p

/-- A GeoJSON coordinate structure: a number (possibly NaN, modelled `none`)
or an arbitrarily nested array. -/
inductive Coord where
  | num (v : Option ℚ)
  | arr (cs : List Coord)

/-- JS `ToNumber` applied to a coordinate-tree element, as triggered by
`Math.round(n * factor)` when `n` is itself an array: `[] → 0`, a
one-element array coerces to its element, a longer array → NaN. -/
def coerceNum : Coord → Option ℚ
  | .num v => v
  | .arr [] => some 0
  | .arr [c] => coerceNum c
  | .arr (_ :: _ :: _) => none

/-- The element-wise lambda `(n) => Math.round(n * factor) / factor` applied to
an element of an array whose first element is a number (JS coerces an array
element to a number first). -/
def elemRound (p : ℕ) (d : Coord) : Coord :=
  .num ((coerceNum d).map (roundPrec p))

/-- The inner `simplifyValue` closure of `simplifyCoordinates`
(aequilibrae/utils.ts lines 243-256): numbers are rounded; an array whose
first element is a number is mapped through `Math.round(n*factor)/factor`
element-wise (JS coerces non-number elements); other arrays recurse. -/
def simplifyValue (p : ℕ) : Coord → Coord
  | .num v => .num (v.map (roundPrec p))
  | .arr [] => .arr []
  | .arr (Coord.num v :: rest) =>
      .arr ((Coord.num v :: rest).map (elemRound p))
  | .arr (Coord.arr x :: rest) =>
      .arr ((Coord.arr x :: rest).attach.map (fun d => simplifyValue p d.1))
termination_by c => sizeOf c
decreasing_by
  have h := List.sizeOf_lt_of_mem d.2
  simp only [Coord.arr.sizeOf_spec] at h ⊢
  omega

/-- `simplifyCoordinates(coords, precision)`: non-arrays are returned
unchanged (the `!coords || !Array.isArray(coords)` guard); arrays go
through `simplifyValue`. -/
def simplifyCoordinates (p : ℕ) : Coord → Coord
  | .num v => .num v
  | .arr cs => simplifyValue p (.arr cs)

/-- Custom induction principle for the nested inductive `Coord`. -/
theorem Coord.inductionOn {P : Coord → Prop}
    (hnum : ∀ v, P (.num v))
    (harr : ∀ cs, (∀ c ∈ cs, P c) → P (.arr cs)) : ∀ c, P c
  | .num v => hnum v
  | .arr cs => harr cs (fun c hc => Coord.inductionOn hnum harr c)
termination_by c => sizeOf c
decreasing_by
  have h1 := List.sizeOf_lt_of_mem hc
  simp only [Coord.arr.sizeOf_spec]
  omega

theorem jsRound_intCast (k : ℤ) : jsRound (k : ℚ) = k := by
  unfold jsRound
  rw [add_comm, Int.floor_add_int]
  norm_num

theorem roundPrec_idem (p : ℕ) (q : ℚ) : roundPrec p (roundPrec p q) = roundPrec p q := by
  unfold roundPrec
  have hf : ((10 : ℚ) ^ p) ≠ 0 := by positivity
  have hdiv : ((jsRound (q * 10 ^ p) : ℚ) / 10 ^ p) * 10 ^ p
      = ((jsRound (q * 10 ^ p) : ℤ) : ℚ) := by
    field_simp
  rw [hdiv, jsRound_intCast]

theorem roundOpt_idem (p : ℕ) (v : Option ℚ) :
    (v.map (roundPrec p)).map (roundPrec p) = v.map (roundPrec p) := by
  cases v <;> simp [roundPrec_idem]

theorem elemRound_idem (p : ℕ) (d : Coord) :
    elemRound p (elemRound p d) = elemRound p d := by
  simp only [elemRound, coerceNum]
  rw [roundOpt_idem]

theorem simplifyValue_arr_num (p : ℕ) (v : Option ℚ) (rest : List Coord) :
    simplifyValue p (.arr (.num v :: rest))
      = .arr ((Coord.num v :: rest).map (elemRound p)) := by
  simp [simplifyValue]

theorem simplifyValue_arr_arr (p : ℕ) (x rest : List Coord) :
    simplifyValue p (.arr (.arr x :: rest))
      = .arr ((Coord.arr x :: rest).map (simplifyValue p)) := by
  rw [simplifyValue]
  congr 1
  exact List.attach_map_val _ _

theorem simplifyValue_arr_shape (p : ℕ) (cs : List Coord) :
    ∃ ds, simplifyValue p (.arr cs) = .arr ds := by
  match cs with
  | [] => exact ⟨[], by simp [simplifyValue]⟩
  | .num v :: rest => exact ⟨_, simplifyValue_arr_num p v rest⟩
  | .arr x :: rest => exact ⟨_, simplifyValue_arr_arr p x rest⟩

theorem simplifyValue_idem (p : ℕ) :
    ∀ c, simplifyValue p (simplifyValue p c) = simplifyValue p c := by
  intro c
  induction c using Coord.inductionOn with
  | hnum v =>
    simp only [simplifyValue]
    rw [roundOpt_idem]
  | harr cs ih =>
    cases cs with
    | nil => simp [simplifyValue]
    | cons c rest =>
      cases c with
      | num v =>
        rw [simplifyValue_arr_num, List.map_cons]
        have hh : elemRound p (.num v) = Coord.num (v.map (roundPrec p)) := by
          simp [elemRound, coerceNum]
        rw [hh, simplifyValue_arr_num, List.map_cons]
        congr 1
        congr 1
        · rw [← hh]
          exact elemRound_idem p (.num v)
        · rw [List.map_map]
          exact List.map_congr_left (fun d _ => elemRound_idem p d)
      | arr x =>
        rw [simplifyValue_arr_arr, List.map_cons]
        obtain ⟨ds, hds⟩ := simplifyValue_arr_shape p x
        rw [hds, simplifyValue_arr_arr, List.map_cons]
        congr 1
        congr 1
        · rw [← hds]
          exact ih (.arr x) (List.mem_cons_self _ _)
        · rw [List.map_map]
          exact List.map_congr_left
            (fun d hd => ih d (List.mem_cons_of_mem _ hd))

/-- C9: For every coordinate structure x (numbers nested in arrays to any
depth) and every precision p, `simplifyCoordinates` is idempotent:
`simplifyCoordinates(simplifyCoordinates(x, p), p) = simplifyCoordinates(x, p)`. -/
theorem c9_simplifyCoordinates_idempotent (p : ℕ) (c : Coord) :
    simplifyCoordinates p (simplifyCoordinates p c) = simplifyCoordinates p c := by
  cases c with
  | num v => rfl
  | arr cs =>
    obtain ⟨ds, hds⟩ := simplifyValue_arr_shape p cs
    simp only [simplifyCoordinates]
    rw [hds]
    show simplifyCoordinates p (.arr ds) = Coord.arr ds
    simp only [simplifyCoordinates]
    rw [← hds]
    exact simplifyValue_idem p _

/-! ## Loading queue — sqlite-map/loader.ts -/

/-- A JS promise as built by the loading-queue code, abstracted by what must
happen for it to resolve: `resolvedNow` is the initial `Promise.resolve()`;
`resolvedBy t` is the `new Promise(resolve => releaseSlot = () => ...)` of the
acquire call with ticket `t`, resolved exactly when that call's `releaseSlot`
is invoked; `chained p` is `p.then(f)` for a non-promise-returning `f`, which
resolves exactly when `p` does. -/
inductive JsPromise where
  | resolvedNow
  | resolvedBy (ticket : ℕ)
  | chained (p : JsPromise)

/-- Whether a promise is resolved, given the set of acquire calls whose
`releaseSlot` callback has been invoked so far. -/
def JsPromise.isResolved (released : List ℕ) : JsPromise → Bool
  | .resolvedNow => true
  | .resolvedBy t => released.contains t
  | .chained p => p.isResolved released

/-- Module state of loader.ts: `loadingQueue`, `queueLength`,
`totalMapsLoading`, plus a ticket counter naming successive acquire calls. -/
structure QueueState where
  loadingQueue : JsPromise
  queueLength : ℤ
  totalMapsLoading : ℤ
  nextTicket : ℕ

def initQueueState : QueueState :=
  { loadingQueue := .resolvedNow, queueLength := 0, totalMapsLoading := 0, nextTicket := 0 }

/-- `acquireLoadingSlot()` (loader.ts lines 24-41): increments the counters,
snapshots `loadingQueue.then()` as `myTurn`, installs a fresh pending promise
(resolved by this call's `releaseSlot`) as the new queue tail, and returns
`myTurn.then(() => releaseSlot)`. -/
def acquireLoadingSlot (s : QueueState) : QueueState × JsPromise :=
  let myTurn := JsPromise.chained s.loadingQueue
  ({ loadingQueue := .resolvedBy s.nextTicket,
     queueLength := s.queueLength + 1,
     totalMapsLoading := s.totalMapsLoading + 1,
     nextTicket := s.nextTicket + 1 },
   .chained myTurn)

/-- `mapLoadingComplete()` (sqlite-map/loader.ts lines 47-49):
`totalMapsLoading = Math.max(0, totalMapsLoading - 1)`. -/
def mapLoadingComplete (s : QueueState) : QueueState :=
  { s with totalMapsLoading := max 0 (s.totalMapsLoading - 1) }

/-- Gauge read by the adaptive budgeting: `getTotalMapsLoading()`. -/
def getTotalMapsLoading (s : QueueState) : ℤ :=
  s.totalMapsLoading

/-- C2: For acquireLoadingSlot calls A, B, C issued in that order from the
initial module state, the promise returned to B resolves exactly when A's
release callback (ticket 0) has been invoked — so it never resolves before —
and C's resolves exactly when B's release callback (ticket 1) has been
invoked; A's promise is immediately resolvable (its predecessor is the
pre-resolved initial queue). -/
theorem c2_admission_queue_fifo (released : List ℕ) :
    (acquireLoadingSlot initQueueState).2.isResolved released = true
    ∧ (acquireLoadingSlot
        (acquireLoadingSlot initQueueState).1).2.isResolved released
      = released.contains 0
    ∧ (acquireLoadingSlot (acquireLoadingSlot
        (acquireLoadingSlot initQueueState).1).1).2.isResolved released
      = released.contains 1 := by
  refine ⟨rfl, rfl, rfl⟩

/-! ## Adaptive memory budget — `getMemoryLimits` -/

/-- `getMemoryLimits(totalMaps)`: auto-computed feature limit and coordinate
precision, tiered by the number of concurrently loading maps. -/
def getMemoryLimits (totalMaps : ℤ) : ℤ × ℤ :=
  if totalMaps ≥ 8 then (25000, 4)
  else if totalMaps ≥ 5 then (40000, 4)
  else if totalMaps ≥ 3 then (60000, 5)
  else (100000, 5)

/-- Fold a list of gauge operations over the queue state. -/
def runGauge (s : QueueState) : List (QueueState → QueueState) → QueueState
  | [] => s
  | f :: rest => runGauge (f s) rest

/-- C6: The adaptive budget returns the tightest tier (25000, 4) for gauge ≥ 8,
the medium tier (40000, 4) for gauge 5–7, the light tier (60000, 5) for gauge
3–4, and the full budget (100000, 5) below 3; acquiring 8 slots from the
initial state puts the gauge at 8 (tightest tier), and after all 8 signal
completion via `mapLoadingComplete` the computed budget is the full tier. -/
theorem c6_adaptive_budget_tiers (n : ℤ) :
    (n ≥ 8 → getMemoryLimits n = (25000, 4))
    ∧ (5 ≤ n ∧ n ≤ 7 → getMemoryLimits n = (40000, 4))
    ∧ (3 ≤ n ∧ n ≤ 4 → getMemoryLimits n = (60000, 5))
    ∧ (n < 3 → getMemoryLimits n = (100000, 5))
    ∧ (let s8 := runGauge initQueueState
         (List.replicate 8 (fun s => (acquireLoadingSlot s).1))
       getMemoryLimits (getTotalMapsLoading s8) = (25000, 4)
       ∧ getMemoryLimits
           (getTotalMapsLoading (runGauge s8 (List.replicate 8 mapLoadingComplete)))
           = (100000, 5)) := by
  refine ⟨fun h => ?_, fun h => ?_, fun h => ?_, fun h => ?_, by decide⟩
  · simp [getMemoryLimits, h]
  · have h5 : n ≥ 5 := h.1
    have h8 : ¬ n ≥ 8 := by omega
    simp [getMemoryLimits, h5, h8]
  · have h3 : n ≥ 3 := h.1
    have h8 : ¬ n ≥ 8 := by omega
    have h5 : ¬ n ≥ 5 := by omega
    simp [getMemoryLimits, h3, h5, h8]
  · have h8 : ¬ n ≥ 8 := by omega
    have h5 : ¬ n ≥ 5 := by omega
    have h3 : ¬ n ≥ 3 := by omega
    simp [getMemoryLimits, h3, h5, h8]

/-- Witness for C6 at concrete gauges 8, 6, 3 and 2. -/
theorem c6_adaptive_budget_tiers_witness :
    getMemoryLimits 8 = (25000, 4) ∧ getMemoryLimits 6 = (40000, 4)
    ∧ getMemoryLimits 3 = (60000, 5) ∧ getMemoryLimits 2 = (100000, 5) :=
  ⟨(c6_adaptive_budget_tiers 8).1 (by decide),
   (c6_adaptive_budget_tiers 6).2.1 (by decide),
   (c6_adaptive_budget_tiers 3).2.2.1 (by decide),
   (c6_adaptive_budget_tiers 2).2.2.2.1 (by decide)⟩

/-! ## Shared SPL engine — loader.ts `initSql` / `releaseSql` -/

/-- Module state of the shared engine handle: `sharedSpl`, `splInitPromise`
and `splRefCount`, plus a counter of engine-factory invocations whose value
also names the engine instances (instance `k` is the result of the `k`-th
`SPL()` call). -/
structure SplState where
  sharedSpl : Option ℕ
  splInitPromise : Option ℕ
  splRefCount : ℤ
  nextEngine : ℕ

def initSplState : SplState :=
  { sharedSpl := none, splInitPromise := none, splRefCount := 0, nextEngine := 0 }

/-- `initSql()` (loader.ts lines 71-91), with the factory completing before
the next operation runs (sequential model): bump the refcount; return the
cached engine if present, else the in-flight one, else run the factory — on
completion `sharedSpl` is set and `splInitPromise` cleared. -/
def initSql (s : SplState) : SplState × ℕ :=
  let s1 := { s with splRefCount := s.splRefCount + 1 }
  match s1.sharedSpl with
  | some e => (s1, e)
  | none =>
    match s1.splInitPromise with
    | some e => (s1, e)
    | none =>
        ({ s1 with
            sharedSpl := some s1.nextEngine,
            splInitPromise := none,
            nextEngine := s1.nextEngine + 1 },
          s1.nextEngine)

/-- `releaseSql()` (loader.ts lines 97-102): decrement, clamped at 0; the
engine is deliberately retained. -/
def releaseSql (s : SplState) : SplState :=
  { s with splRefCount := max 0 (s.splRefCount - 1) }

/-- C8: `releaseSql` never tears the engine down — in particular when the
refcount drops from 1 to 0 the constructed instance is retained — and a
subsequent `initSql` returns that same instance without re-running the engine
factory (the factory-invocation counter does not advance).  Neither modelled
operation ever discards an existing engine instance, so teardown never
happens through `releaseSql`. -/
theorem c8_engine_kept_warm (s : SplState) :
    (releaseSql s).sharedSpl = s.sharedSpl
    ∧ (releaseSql s).nextEngine = s.nextEngine
    ∧ (s.splRefCount = 1 → (releaseSql s).splRefCount = 0)
    ∧ (∀ e, s.sharedSpl = some e →
        (initSql s).2 = e
        ∧ (initSql s).1.sharedSpl = some e
        ∧ (initSql s).1.nextEngine = s.nextEngine)
    ∧ (∀ e, s.sharedSpl = some e → (initSql (releaseSql s)).2 = e
        ∧ (initSql (releaseSql s)).1.nextEngine = s.nextEngine) := by
  refine ⟨rfl, rfl, fun h => by simp [releaseSql, h], fun e he => ?_, fun e he => ?_⟩
  · refine ⟨?_, ?_, ?_⟩ <;> simp [initSql, he]
  · constructor <;> simp [initSql, releaseSql, he]

/-- Witness for C8: engine 0 is created by the first `initSql`, survives the
release that takes the refcount from 1 to 0, and is handed out again by the
next `initSql` without running the factory again. -/
theorem c8_engine_kept_warm_witness :
    (releaseSql (initSql initSplState).1).sharedSpl = some 0
    ∧ (releaseSql (initSql initSplState).1).splRefCount = 0
    ∧ (initSql (releaseSql (initSql initSplState).1)).2 = 0
    ∧ (initSql (releaseSql (initSql initSplState).1)).1.nextEngine = 1 := by
  have h := c8_engine_kept_warm (initSql initSplState).1
  refine ⟨?_, ?_, ?_, ?_⟩
  · exact (h.1).trans (by decide)
  · exact h.2.2.1 (by decide)
  · exact ((h.2.2.2.2 0 (by decide)).1)
  · exact ((h.2.2.2.2 0 (by decide)).2).trans (by decide)

/-! ## Database connection cache — sqlite-map/db.ts `openDb` / `releaseDb` -/

/-- A cached database entry (db.ts `CachedDb`): the connection (named by the
index of the `spl.db(...)` factory call that created it), its reference
count, and its path. -/
structure CachedDb where
  db : ℕ
  refCount : ℤ
  path : String
  deriving DecidableEq, Repr

/-- Module state of db.ts: the connection cache, the in-flight open promises
(`dbLoadPromises`; in the sequential model a *retained* entry is always a
settled promise), a factory-invocation counter naming connections, and the
list of connections whose `close()` has run, in order. -/
structure DbState where
  dbCache : List (String × CachedDb)
  dbLoadPromises : List (String × Except Unit ℕ)
  nextConn : ℕ
  closed : List ℕ

def initDbState : DbState :=
  { dbCache := [], dbLoadPromises := [], nextConn := 0, closed := [] }

/-- `openDb(spl, arrayBuffer, path?)` (db.ts lines 418-453), in the
sequential model where the factory (`spl.db`) settles before the next cache
operation runs.  `factory` is the outcome the factory would produce if
invoked.  Without a path the cache is bypassed entirely.  With a path: a
cache hit bumps the refcount; otherwise a pending load promise is awaited
(returning its settled outcome without running the factory); otherwise the
factory runs — on success the entry is cached with refcount 1 and the
in-flight marker is deleted, but on rejection the `dbLoadPromises.delete`
line is never reached, so the rejected promise stays in the map. -/
def openDb (s : DbState) (path : Option String) (factory : Except Unit Unit) :
    DbState × Except Unit ℕ :=
  match path with
  | none =>
    match factory with
    | .ok _ => ({ s with nextConn := s.nextConn + 1 }, .ok s.nextConn)
    | .error e => (s, .error e)
  | some p =>
    match getA s.dbCache p with
    | some c =>
        ({ s with dbCache := setA s.dbCache p { c with refCount := c.refCount + 1 } },
         .ok c.db)
    | none =>
      match getA s.dbLoadPromises p with
      | some (.ok conn) =>
          -- await the already-settled promise, then bump the refcount if the
          -- entry is (still) cached
          (match getA s.dbCache p with
           | some c =>
              { s with dbCache := setA s.dbCache p { c with refCount := c.refCount + 1 } }
           | none => s,
           .ok conn)
      | some (.error e) => (s, .error e)
      | none =>
        match factory with
        | .ok _ =>
            ({ s with
                dbCache := setA s.dbCache p { db := s.nextConn, refCount := 1, path := p },
                nextConn := s.nextConn + 1 },
             .ok s.nextConn)
        | .error e =>
            ({ s with dbLoadPromises := setA s.dbLoadPromises p (.error e) }, .error e)

/-- `releaseDb(path)` (db.ts lines 459-474): unknown key is a no-op;
otherwise decrement, and at refcount ≤ 0 close the connection and delete the
entry. -/
def releaseDb (s : DbState) (p : String) : DbState :=
  match getA s.dbCache p with
  | none => s
  | some c =>
      if c.refCount - 1 ≤ 0 then
        { s with dbCache := delA s.dbCache p, closed := s.closed ++ [c.db] }
      else
        { s with dbCache := setA s.dbCache p { c with refCount := c.refCount - 1 } }

/-- One call in an interleaving of `openDb`/`releaseDb` calls for one path. -/
inductive DbOp where
  | openCall
  | releaseCall
  deriving DecidableEq, Repr

def dbStep (p : String) (s : DbState) : DbOp → DbState
  | .openCall => (openDb s (some p) (.ok ())).1
  | .releaseCall => releaseDb s p

/-- Run an interleaving of calls for path `p` from the initial module state. -/
def runDbOps (p : String) (ops : List DbOp) : DbState :=
  ops.foldl (dbStep p) initDbState

/-- Well-formedness of an interleaving: every release is matched by an
earlier open (running balance stays positive at each release). -/
def wfOps : List DbOp → ℤ → Bool
  | [], _ => true
  | .openCall :: rest, b => wfOps rest (b + 1)
  | .releaseCall :: rest, b => decide (0 < b) && wfOps rest (b - 1)

/-- Invariant of the connection cache for path `p` after `o` opens and `r`
releases (well-formed): no pending promises linger, at balance zero the
entry is gone and every created connection is closed in creation order, and
at positive balance the newest connection is cached with refcount equal to
the balance while exactly the older connections are closed. -/
def DbInv (p : String) (o r : ℕ) (s : DbState) : Prop :=
  r ≤ o
  ∧ s.dbLoadPromises = []
  ∧ (o = r → getA s.dbCache p = none ∧ s.closed = List.range s.nextConn)
  ∧ (r < o → ∃ c, getA s.dbCache p = some c
      ∧ c.refCount = (o : ℤ) - r
      ∧ c.db + 1 = s.nextConn
      ∧ s.closed = List.range c.db)

theorem openDb_hit (s : DbState) (p : String) (c : CachedDb)
    (h : getA s.dbCache p = some c) (f : Except Unit Unit) :
    openDb s (some p) f
      = ({ s with dbCache := setA s.dbCache p { c with refCount := c.refCount + 1 } },
         .ok c.db) := by
  simp only [openDb, h]

theorem openDb_miss (s : DbState) (p : String)
    (h1 : getA s.dbCache p = none) (h2 : getA s.dbLoadPromises p = none) :
    openDb s (some p) (.ok ())
      = ({ s with
            dbCache := setA s.dbCache p { db := s.nextConn, refCount := 1, path := p },
            nextConn := s.nextConn + 1 },
         .ok s.nextConn) := by
  simp only [openDb, h1, h2]

theorem releaseDb_none (s : DbState) (p : String) (h : getA s.dbCache p = none) :
    releaseDb s p = s := by
  simp only [releaseDb, h]

theorem releaseDb_close (s : DbState) (p : String) (c : CachedDb)
    (h : getA s.dbCache p = some c) (h2 : c.refCount - 1 ≤ 0) :
    releaseDb s p
      = { s with dbCache := delA s.dbCache p, closed := s.closed ++ [c.db] } := by
  simp only [releaseDb, h, if_pos h2]

theorem releaseDb_dec (s : DbState) (p : String) (c : CachedDb)
    (h : getA s.dbCache p = some c) (h2 : ¬ c.refCount - 1 ≤ 0) :
    releaseDb s p
      = { s with dbCache := setA s.dbCache p { c with refCount := c.refCount - 1 } } := by
  simp only [releaseDb, h, if_neg h2]

theorem dbInv_open (p : String) (o r : ℕ) (s : DbState) (h : DbInv p o r s) :
    DbInv p (o + 1) r (openDb s (some p) (.ok ())).1 := by
  obtain ⟨hro, hpend, heq, hlt⟩ := h
  rcases Nat.lt_or_ge r o with hr | hr
  · -- positive balance: cache hit, bump the refcount
    obtain ⟨c, hc, hrc, hdb, hcl⟩ := hlt hr
    rw [openDb_hit s p c hc]
    refine ⟨by omega, hpend, fun habs => absurd habs (by omega), fun _ => ?_⟩
    exact ⟨{ c with refCount := c.refCount + 1 },
      getA_setA_self _ _ _, by simp [hrc]; omega, by simpa using hdb, by simpa using hcl⟩
  · -- zero balance: miss, create a fresh entry
    have hor : o = r := by omega
    obtain ⟨hnone, hclosed⟩ := heq hor
    have hp2 : getA s.dbLoadPromises p = none := by rw [hpend]; rfl
    rw [openDb_miss s p hnone hp2]
    refine ⟨by omega, hpend, fun habs => absurd habs (by omega), fun _ => ?_⟩
    refine ⟨{ db := s.nextConn, refCount := 1, path := p }, getA_setA_self _ _ _, ?_, rfl, ?_⟩
    · simp; omega
    · simpa using hclosed

theorem dbInv_release (p : String) (o r : ℕ) (s : DbState) (h : DbInv p o r s)
    (hr : r < o) :
    DbInv p o (r + 1) (releaseDb s p) := by
  obtain ⟨hro, hpend, heq, hlt⟩ := h
  obtain ⟨c, hc, hrc, hdb, hcl⟩ := hlt hr
  by_cases hone : o = r + 1
  · -- refcount drops to zero: close and delete
    have hz : c.refCount - 1 ≤ 0 := by rw [hrc]; omega
    rw [releaseDb_close s p c hc hz]
    refine ⟨by omega, hpend, fun _ => ?_, fun habs => absurd habs (by omega)⟩
    constructor
    · exact getA_delA_self _ _
    · show s.closed ++ [c.db] = List.range s.nextConn
      rw [hcl, ← hdb, List.range_succ]
  · -- refcount stays positive: decrement in place
    have hz : ¬ c.refCount - 1 ≤ 0 := by rw [hrc]; omega
    rw [releaseDb_dec s p c hc hz]
    refine ⟨by omega, hpend, fun habs => absurd habs (by omega), fun _ => ?_⟩
    exact ⟨{ c with refCount := c.refCount - 1 },
      getA_setA_self _ _ _, by simp [hrc]; omega, by simpa using hdb, by simpa using hcl⟩

theorem dbInv_run (p : String) :
    ∀ (ops : List DbOp) (o r : ℕ) (s : DbState),
      DbInv p o r s → wfOps ops ((o : ℤ) - r) = true →
      DbInv p (o + ops.count .openCall) (r + ops.count .releaseCall)
        (ops.foldl (dbStep p) s) := by
  intro ops
  induction ops with
  | nil => intro o r s hinv _; simpa using hinv
  | cons op rest ih =>
    intro o r s hinv hwf
    cases op with
    | openCall =>
      have hwf' : wfOps rest (((o + 1 : ℕ) : ℤ) - r) = true := by
        simp only [wfOps] at hwf
        convert hwf using 2
        push_cast
        ring
      have hco : (DbOp.openCall :: rest).count DbOp.openCall
          = rest.count DbOp.openCall + 1 := by simp [List.count_cons]
      have hcr : (DbOp.openCall :: rest).count DbOp.releaseCall
          = rest.count DbOp.releaseCall := by simp [List.count_cons]
      rw [List.foldl_cons, hco, hcr,
        show o + (rest.count DbOp.openCall + 1) = (o + 1) + rest.count DbOp.openCall by omega]
      exact ih (o + 1) r _ (dbInv_open p o r s hinv) hwf'
    | releaseCall =>
      simp only [wfOps, Bool.and_eq_true, decide_eq_true_eq] at hwf
      obtain ⟨hpos, hwfrest⟩ := hwf
      have hr : r < o := by omega
      have hwf' : wfOps rest ((o : ℤ) - ((r + 1 : ℕ) : ℤ)) = true := by
        convert hwfrest using 2
        push_cast
        ring
      have hco : (DbOp.releaseCall :: rest).count DbOp.openCall
          = rest.count DbOp.openCall := by simp [List.count_cons]
      have hcr : (DbOp.releaseCall :: rest).count DbOp.releaseCall
          = rest.count DbOp.releaseCall + 1 := by simp [List.count_cons]
      rw [List.foldl_cons, hco, hcr,
        show r + (rest.count DbOp.releaseCall + 1)
          = (r + 1) + rest.count DbOp.releaseCall by omega]
      exact ih o (r + 1) _ (dbInv_release p o r s hinv hr) hwf'

theorem dbInv_init (p : String) : DbInv p 0 0 initDbState := by
  refine ⟨le_refl 0, rfl, fun _ => ⟨rfl, rfl⟩, fun habs => absurd habs (by omega)⟩

/-- C1 counterexample: the interleaving release-open-open-release consists of
2 `openDb("a")` calls and 2 `releaseDb("a")` calls, yet at the end the cache
entry for "a" is still present (refcount 1) and no connection was ever
closed — because the leading release hits an unknown key and is a defensive
no-op.  This falsifies the claim for this interleaving. -/
theorem c1_refcount_counterexample :
    (runDbOps "a" [.releaseCall, .openCall, .openCall, .releaseCall]).closed = []
    ∧ getA (runDbOps "a" [.releaseCall, .openCall, .openCall, .releaseCall]).dbCache "a"
        = some { db := 0, refCount := 1, path := "a" } := by
  exact ⟨rfl, rfl⟩

/-- C1 (amended): for every cache key, in any interleaving of N `openDb` and
N `releaseDb` calls for that path in which every release is preceded by more
opens than releases, every connection created for the path is closed exactly
once and the cache entry is removed at the end; after N opens and only M < N
releases (same prefix condition), a connection remains cached with refcount
N − M, its close has not run, and it is returned by further `openDb` calls
for that path. -/
theorem c1_refcount_amended (p : String) (ops : List DbOp) (N M : ℕ)
    (hwf : wfOps ops 0 = true)
    (hN : ops.count .openCall = N) (hM : ops.count .releaseCall = M) :
    (M = N →
      getA (runDbOps p ops).dbCache p = none
      ∧ (∀ c, c < (runDbOps p ops).nextConn → (runDbOps p ops).closed.count c = 1))
    ∧ (M < N →
      ∃ c, getA (runDbOps p ops).dbCache p = some c
        ∧ c.refCount = (N : ℤ) - M
        ∧ c.db ∉ (runDbOps p ops).closed
        ∧ (openDb (runDbOps p ops) (some p) (.ok ())).2 = .ok c.db) := by
  simp only [runDbOps]
  have hrun := dbInv_run p ops 0 0 initDbState (dbInv_init p) (by simpa using hwf)
  rw [Nat.zero_add, Nat.zero_add, hN, hM] at hrun
  obtain ⟨hro, hpend, heq, hlt⟩ := hrun
  constructor
  · intro hMN
    obtain ⟨hnone, hclosed⟩ := heq hMN.symm
    refine ⟨hnone, fun c hcn => ?_⟩
    rw [hclosed]
    exact List.count_eq_one_of_mem (List.nodup_range _) (List.mem_range.mpr hcn)
  · intro hMN
    obtain ⟨c, hc, hrc, hdb, hcl⟩ := hlt hMN
    refine ⟨c, hc, by rw [hrc], ?_, ?_⟩
    · rw [hcl]
      intro habs
      exact absurd (List.mem_range.mp habs) (lt_irrefl _)
    · rw [openDb_hit (List.foldl (dbStep p) initDbState ops) p c hc]

/-- Witness for C1 (amended) at the interleavings open-release-open-release
(N = M = 2) and open-open-release (N = 2, M = 1) for path "a". -/
theorem c1_refcount_amended_witness :
    (getA (runDbOps "a" [.openCall, .releaseCall, .openCall, .releaseCall]).dbCache "a" = none
     ∧ (∀ c, c < (runDbOps "a" [.openCall, .releaseCall, .openCall, .releaseCall]).nextConn →
        (runDbOps "a" [.openCall, .releaseCall, .openCall, .releaseCall]).closed.count c = 1))
    ∧ (∃ c, getA (runDbOps "a" [.openCall, .openCall, .releaseCall]).dbCache "a" = some c
        ∧ c.refCount = (2 : ℤ) - 1
        ∧ c.db ∉ (runDbOps "a" [.openCall, .openCall, .releaseCall]).closed
        ∧ (openDb (runDbOps "a" [.openCall, .openCall, .releaseCall]) (some "a") (.ok ())).2
            = .ok c.db) :=
  ⟨(c1_refcount_amended "a" [.openCall, .releaseCall, .openCall, .releaseCall] 2 2
      (by decide) (by decide) (by decide)).1 rfl,
   (c1_refcount_amended "a" [.openCall, .openCall, .releaseCall] 2 1
      (by decide) (by decide) (by decide)).2 (by decide)⟩

/-- C7: the code violates the claim — when the open factory rejects, the
in-flight marker for the path is NOT cleared (`dbLoadPromises.delete(path)`
sits after the successful `await` and is never reached on rejection), so a
subsequent `openDb` for the same path receives the cached rejected promise
instead of re-running the factory: the second call fails even though its
factory would succeed, and no new connection is constructed. -/
theorem c7_inflight_marker_retained_on_rejection :
    getA ((openDb initDbState (some "a") (.error ())).1).dbLoadPromises "a"
      = some (.error ())
    ∧ (openDb ((openDb initDbState (some "a") (.error ())).1) (some "a") (.ok ())).2
      = .error ()
    ∧ (openDb ((openDb initDbState (some "a") (.error ())).1) (some "a") (.ok ())).1
      = (openDb initDbState (some "a") (.error ())).1 := by
  exact ⟨rfl, rfl, rfl⟩

/-- C10: `openDb` without a path bypasses the connection cache and the
in-flight coalescing entirely — the cache, promise map and closed list are
untouched, a fresh connection is constructed by each call (the factory
counter advances) — no reference count is tracked for it; and `releaseDb` is
a no-op for any key absent from the cache and only ever closes connections
that are in the cache, so it can never close a pathless connection. -/
theorem c10_pathless_open_bypasses_cache (s : DbState) (f : Except Unit Unit) :
    (openDb s none f).1.dbCache = s.dbCache
    ∧ (openDb s none f).1.dbLoadPromises = s.dbLoadPromises
    ∧ (openDb s none f).1.closed = s.closed
    ∧ (openDb s none (.ok ())).2 = .ok s.nextConn
    ∧ (openDb s none (.ok ())).1.nextConn = s.nextConn + 1
    ∧ (∀ q, getA s.dbCache q = none → releaseDb s q = s)
    ∧ (∀ q c, c ∈ (releaseDb s q).closed →
        c ∈ s.closed ∨ ∃ e, getA s.dbCache q = some e ∧ e.db = c) := by
  refine ⟨?_, ?_, ?_, rfl, rfl, fun q hq => releaseDb_none s q hq, fun q c hmem => ?_⟩
  · cases f <;> rfl
  · cases f <;> rfl
  · cases f <;> rfl
  · rcases he : getA s.dbCache q with _ | e
    · rw [releaseDb_none s q he] at hmem
      exact Or.inl hmem
    · by_cases hz : e.refCount - 1 ≤ 0
      · rw [releaseDb_close s q e he hz] at hmem
        simp only [List.mem_append, List.mem_singleton] at hmem
        rcases hmem with hmem | hmem
        · exact Or.inl hmem
        · exact Or.inr ⟨e, rfl, hmem.symm⟩
      · rw [releaseDb_dec s q e he hz] at hmem
        exact Or.inl hmem

/-- Witness for C10 at the initial state: the pathless open leaves all cache
state untouched and returns connection 0, and a release for the unknown key
"a" is a no-op. -/
theorem c10_pathless_open_bypasses_cache_witness :
    (openDb initDbState none (.ok ())).1.dbCache = initDbState.dbCache
    ∧ (openDb initDbState none (.ok ())).2 = .ok 0
    ∧ releaseDb initDbState "a" = initDbState :=
  ⟨(c10_pathless_open_bypasses_cache initDbState (.ok ())).1,
   (c10_pathless_open_bypasses_cache initDbState (.ok ())).2.2.2.1,
   (c10_pathless_open_bypasses_cache initDbState (.ok ())).2.2.2.2.2.1 "a" rfl⟩

/-! ## In-memory join — db.ts `performJoin` -/

/-- A database row / plain JS object: ordered key-value entries. -/
def Row : Type := List (String × JsVal)

/-- JS object spread `{...a, ...b}`: start from `a` and assign each entry of
`b` (later keys override, insertion position preserved). -/
def mergeRows (a b : Row) : Row :=
  b.foldl (fun acc kv => setA acc kv.1 kv.2) a

/-- Build a plain object from a list of entries
(`Object.fromEntries`-style: later duplicate keys override). -/
def jsObject (l : List (String × JsVal)) : Row :=
  l.foldl (fun acc kv => setA acc kv.1 kv.2) []

inductive JoinType where
  | left
  | inner
  deriving DecidableEq, Repr

/-- `JoinConfig` of sqlite-map/types: join keys, type, optional column
projection and optional filter on the secondary table. -/
structure JoinConfig where
  table : String
  leftKey : String
  rightKey : String
  type : JoinType
  columns : Option (List String)
  filter : Option String

/-- The `joinLookup` map built by `performJoin` (db.ts lines 96-102): rows
keyed by their right-key value, skipping rows whose key is undefined or
null; later rows with the same key override earlier ones (`Map.set`). -/
def buildLookup (joinData : List Row) (rightKey : String) : List (JsVal × Row) :=
  joinData.foldl (fun m row =>
    match getA row rightKey with
    | none => m
    | some JsVal.null => m
    | some k => setA m k row) []

/-- `joinLookup.get(mainRow[joinConfig.leftKey])`. -/
def joinRowFor (lookup : List (JsVal × Row)) (cfg : JoinConfig) (mainRow : Row) :
    Option Row :=
  (getA mainRow cfg.leftKey).bind (fun k => getA lookup k)

/-- The joined-columns object (db.ts lines 117-123): if `columns` is present
and non-empty, project just those columns of the join row whose values are
defined; otherwise copy the whole join row. -/
def joinedColumns (cfg : JoinConfig) (joinRow : Row) : Row :=
  match cfg.columns with
  | some cols =>
      if cols.isEmpty then jsObject joinRow
      else jsObject (cols.filterMap (fun col => (getA joinRow col).map (fun v => (col, v))))
  | none => jsObject joinRow

/-- `performJoin(mainData, joinData, joinConfig)` (db.ts lines 91-128): map
each main row to `null` (skipped inner-join miss), itself (left-join miss)
or the spread-merge with the joined columns, then filter out the `null`s. -/
def performJoin (mainData joinData : List Row) (cfg : JoinConfig) : List Row :=
  let joinLookup := buildLookup joinData cfg.rightKey
  (mainData.map (fun mainRow =>
      match joinRowFor joinLookup cfg mainRow with
      | none =>
          if cfg.type ≠ JoinType.left then none
          else some mainRow
      | some joinRow => some (mergeRows mainRow (joinedColumns cfg joinRow)))).filterMap id

theorem filterMap_id_map {α β : Type} (f : α → Option β) (l : List α) :
    (l.map f).filterMap id = l.filterMap f := by
  induction l <;> simp_all [List.filterMap_cons]

theorem filterMap_total {α β : Type} (f : α → Option β) (g : α → β)
    (h : ∀ a, f a = some (g a)) (l : List α) : l.filterMap f = l.map g := by
  induction l <;> simp_all [List.filterMap_cons]

theorem performJoin_eq_filterMap (main jd : List Row) (cfg : JoinConfig) :
    performJoin main jd cfg = main.filterMap (fun mainRow =>
      match joinRowFor (buildLookup jd cfg.rightKey) cfg mainRow with
      | none =>
          if cfg.type ≠ JoinType.left then none
          else some mainRow
      | some joinRow => some (mergeRows mainRow (joinedColumns cfg joinRow))) := by
  unfold performJoin
  exact filterMap_id_map _ _

/-- C4: join semantics of `performJoin`.  With type `left`, every primary
row appears exactly once (output = a map over the primary rows, so the
length is preserved): merged with the matching secondary row's columns when
its left-key value has a match in the lookup, and kept unchanged otherwise.
With type `inner`, primary rows without a match are omitted and matching
rows are merged. -/
theorem c4_performJoin_left_inner (tbl lk rk : String) (cols : Option (List String))
    (filt : Option String) (main jd : List Row) :
    performJoin main jd ⟨tbl, lk, rk, .left, cols, filt⟩
      = main.map (fun r =>
          match joinRowFor (buildLookup jd rk) ⟨tbl, lk, rk, .left, cols, filt⟩ r with
          | some j => mergeRows r (joinedColumns ⟨tbl, lk, rk, .left, cols, filt⟩ j)
          | none => r)
    ∧ (performJoin main jd ⟨tbl, lk, rk, .left, cols, filt⟩).length = main.length
    ∧ performJoin main jd ⟨tbl, lk, rk, .inner, cols, filt⟩
      = main.filterMap (fun r =>
          (joinRowFor (buildLookup jd rk) ⟨tbl, lk, rk, .inner, cols, filt⟩ r).map
            (fun j => mergeRows r (joinedColumns ⟨tbl, lk, rk, .inner, cols, filt⟩ j))) := by
  have hleft : performJoin main jd ⟨tbl, lk, rk, .left, cols, filt⟩
      = main.map (fun r =>
          match joinRowFor (buildLookup jd rk) ⟨tbl, lk, rk, .left, cols, filt⟩ r with
          | some j => mergeRows r (joinedColumns ⟨tbl, lk, rk, .left, cols, filt⟩ j)
          | none => r) := by
    rw [performJoin_eq_filterMap]
    apply filterMap_total
    intro r
    cases joinRowFor (buildLookup jd rk) ⟨tbl, lk, rk, .left, cols, filt⟩ r <;> simp
  refine ⟨hleft, by rw [hleft, List.length_map], ?_⟩
  rw [performJoin_eq_filterMap]
  apply List.filterMap_congr
  intro r _
  cases joinRowFor (buildLookup jd rk) ⟨tbl, lk, rk, .inner, cols, filt⟩ r <;> simp

/-! ## Styling — sqlite-map/styling.ts -/

/-- Digits of a decimal literal folded into a natural number. -/
def digitsToNat (l : List Char) : ℕ :=
  l.foldl (fun acc c => acc * 10 + (c.toNat - 48)) 0

/-- JS `Number(string)` restricted to plain decimal literals (optionally
signed, optional fraction); the empty / all-whitespace string is 0 and
anything else non-decimal is NaN (`none`).  The exotic numeric syntaxes
(hex, exponent, Infinity) are not exercised by any theorem below. -/
def jsStrToNum (s : String) : Option ℚ :=
  let t := (jsTrim s).toList
  match t with
  | [] => some 0
  | _ =>
    let signed : ℚ × List Char :=
      match t with
      | '-' :: r => (-1, r)
      | '+' :: r => (1, r)
      | r => (1, r)
    match (signed.2.splitOn '.') with
    | [intPart] =>
        if intPart ≠ [] ∧ intPart.all Char.isDigit then
          some (signed.1 * digitsToNat intPart)
        else none
    | [intPart, fracPart] =>
        if (intPart ≠ [] ∨ fracPart ≠ []) ∧ intPart.all Char.isDigit
            ∧ fracPart.all Char.isDigit then
          some (signed.1 * (digitsToNat intPart
            + (digitsToNat fracPart : ℚ) / 10 ^ fracPart.length))
        else none
    | _ => none

/-- styling.ts `toNumber`: `Number(value)`, with NaN turned into `null`
(both modelled as `none`; note JS `Number(null) = 0`). -/
def toNumber : Option JsVal → Option ℚ
  | none => none
  | some .null => some 0
  | some (.num q) => some q
  | some (.bool b) => some (if b then 1 else 0)
  | some (.str s) => jsStrToNum s

/-- styling.ts `safeMin`: iterative minimum, 0 for the empty array. -/
def safeMin (arr : List ℚ) : ℚ :=
  match arr with
  | [] => 0
  | a :: rest => rest.foldl min a

/-- styling.ts `safeMax`: iterative maximum, 1 for the empty array. -/
def safeMax (arr : List ℚ) : ℚ :=
  match arr with
  | [] => 1
  | a :: rest => rest.foldl max a

/-- The external cartocolor palette table (out-of-scope collaborator):
palette name → (size → hex color list). -/
def PaletteTable : Type := String → Option (List (ℕ × List String))

/-- styling.ts `getPaletteColors`: look the palette up by name (falling back
to YlGn for a falsy name), pick the smallest size ≥ `numColors` (else the
largest available), and fall back to gray everywhere a lookup fails. -/
def getPaletteColors (tbl : PaletteTable) (name : String) (numColors : ℕ) :
    List String :=
  match tbl (if name = "" then "YlGn" else name) with
  | none => List.replicate numColors "#808080"
  | some palette =>
    let sizes := ((palette.map (fun pr => pr.1)).filter (fun n => 0 < n)).mergeSort (· ≤ ·)
    match (sizes.find? (fun s => numColors ≤ s)).orElse (fun _ => sizes.getLast?) with
    | none => List.replicate numColors "#808080"
    | some size => (getA palette size).getD (List.replicate numColors "#808080")

/-- Greedy two-character chunking, JS `hex.match(/.{1,2}/g)`. -/
def chunk2 : List Char → List (List Char)
  | [] => []
  | [a] => [[a]]
  | a :: b :: rest => [a, b] :: chunk2 rest

def hexDigitVal (c : Char) : Option ℕ :=
  if '0' ≤ c ∧ c ≤ '9' then some (c.toNat - 48)
  else if 'a' ≤ c ∧ c ≤ 'f' then some (c.toNat - 87)
  else if 'A' ≤ c ∧ c ≤ 'F' then some (c.toNat - 55)
  else none

/-- JS `parseInt(s, 16)` on a hex chunk: parse leading hex digits, NaN
(`none`) when there are none. -/
def jsParseIntHex (s : List Char) : Option ℤ :=
  let ds := s.takeWhile (fun c => (hexDigitVal c).isSome)
  if ds.isEmpty then none
  else some (ds.foldl (fun acc c => acc * 16 + ((hexDigitVal c).getD 0 : ℤ)) 0)

/-- An RGBA quadruple of JS numbers (a component is `none` when `parseInt`
produced NaN). -/
def RGBA : Type := List (Option ℤ)

/-- styling.ts `hexToRgbA`: split the hex string into byte chunks (falling
back to gray for an empty match) and parse each, with the alpha byte
`Math.round(alpha * 255)`. -/
def hexToRgbA (hex : String) (alpha : ℚ) : RGBA :=
  let bytes :=
    match chunk2 (replaceFirstChar hex.toList '#' []) with
    | [] => [['8', '0'], ['8', '0'], ['8', '0']]
    | l => l
  [jsParseIntHex (bytes.getD 0 []), jsParseIntHex (bytes.getD 1 []),
   jsParseIntHex (bytes.getD 2 []), some (jsRound (alpha * 255))]

/-- JS array indexing with an integer index (undefined when out of range). -/
def jsIndex {α : Type} (l : List α) (i : ℤ) : Option α :=
  if i < 0 then none else l.get? i.toNat

/-- The quantitative color style fields probed by `buildColorEncoder`:
`range`, `palette`, `numColors` (each possibly absent). -/
structure ColorStyleCfg where
  range : Option (ℚ × ℚ)
  palette : Option String
  numColors : Option ℕ

/-- `s.numColors || 7` (0 is falsy). -/
def styleNumColors (style : ColorStyleCfg) : ℕ :=
  match style.numColors with
  | some n => if n = 0 then 7 else n
  | none => 7

/-- `s.palette || 'YlGn'` ("" is falsy). -/
def stylePaletteName (style : ColorStyleCfg) : String :=
  match style.palette with
  | some n => if n = "" then "YlGn" else n
  | none => "YlGn"

/-- The resolved RGBA palette of the encoder. -/
def encoderColors (tbl : PaletteTable) (style : ColorStyleCfg) : List RGBA :=
  (getPaletteColors tbl (stylePaletteName style) (styleNumColors style)).map
    (fun h => hexToRgbA h 1)

/-- styling.ts `buildColorEncoder` (lines 85-113): optionally clamp the
values to `dataRange`, derive `[min, max]` from `style.range` or from the
data, resolve the palette, set `scale = 0` when `max === min` (the
division-by-zero guard), and return the per-value encoder
`value ↦ colors[clamp(0, numColors-1, round((num - min) * scale))]`. -/
def buildColorEncoder (tbl : PaletteTable) (values : List (Option JsVal))
    (style : ColorStyleCfg) (dataRange : Option (ℚ × ℚ)) :
    Option JsVal → Option RGBA :=
  let clamped : List (Option JsVal) :=
    match dataRange with
    | some dr => values.map (fun v =>
        match toNumber v with
        | none => some JsVal.null
        | some n => some (JsVal.num (max dr.1 (min dr.2 n))))
    | none => values
  let nums : List ℚ := (clamped.map toNumber).filterMap id
  let mnmx : ℚ × ℚ :=
    match style.range with
    | some r => r
    | none => (safeMin nums, safeMax nums)
  let numColors := styleNumColors style
  let colors := encoderColors tbl style
  let scale : ℚ :=
    if mnmx.2 = mnmx.1 then 0 else ((numColors : ℚ) - 1) / (mnmx.2 - mnmx.1)
  fun value =>
    let num := (toNumber value).getD mnmx.1
    let idx := jsRound ((num - mnmx.1) * scale)
    jsIndex colors (max 0 (min ((numColors : ℤ) - 1) idx))

/-- styling.ts `applyQuantitativeMapping` (lines 125-145): the value written
at slot `i` of the target buffer for each input value — clamped linear
interpolation of `values[i]` from `dataRange` into `outputRange`, with the
scale collapsed to 0 when the data range is degenerate (`dataMax ===
dataMin`), so no division by zero ever happens. -/
def applyQuantitativeMapping (values : List (Option ℚ)) (dataRange : ℚ × ℚ)
    (outputRange : ℚ × ℚ) : List ℚ :=
  let scale : ℚ :=
    if dataRange.2 = dataRange.1 then 0 else 1 / (dataRange.2 - dataRange.1)
  values.map (fun v =>
    let normalized := match v with
      | none => 0
      | some n => (n - dataRange.1) * scale
    max outputRange.1
      (min outputRange.2 (normalized * (outputRange.2 - outputRange.1) + outputRange.1)))

theorem clamp_bottom (lo hi : ℚ) : max lo (min hi lo) = lo := by
  rcases le_total lo hi with h | h
  · rw [min_eq_right h, max_self]
  · rw [min_eq_left h, max_eq_left h]

/-- C5: the quantitative mapping with data range [0,100] and output range
[2,12] sends 0 ↦ 2, 100 ↦ 12 and 50 ↦ 7; and whenever the data range is
degenerate (max = min) the scale guard makes every input map to the minimum
output — for the numeric mapping the lower output bound, and for the color
encoder the first palette step — with no division by zero (exact rational
arithmetic throughout, so no NaN or Infinity can arise). -/
theorem c5_quantitative_boundaries :
    applyQuantitativeMapping [some 0, some 100, some 50] (0, 100) (2, 12) = [2, 12, 7]
    ∧ (∀ (values : List (Option ℚ)) (m outLo outHi : ℚ),
        applyQuantitativeMapping values (m, m) (outLo, outHi)
          = values.map (fun _ => outLo))
    ∧ (∀ (tbl : PaletteTable) (values : List (Option JsVal)) (pal : Option String)
        (nc : Option ℕ) (m : ℚ) (dr : Option (ℚ × ℚ)) (v : Option JsVal),
        buildColorEncoder tbl values { range := some (m, m), palette := pal, numColors := nc } dr v
          = jsIndex (encoderColors tbl { range := some (m, m), palette := pal, numColors := nc }) 0) := by
  refine ⟨?_, ?_, ?_⟩
  · unfold applyQuantitativeMapping
    norm_num [min_def, max_def]
  · intro values m outLo outHi
    unfold applyQuantitativeMapping
    simp only [if_pos rfl]
    apply List.map_congr_left
    intro v _
    cases v with
    | none => simp [clamp_bottom]
    | some n => simp [clamp_bottom]
  · intro tbl values pal nc m dr v
    unfold buildColorEncoder
    simp only [eq_self_iff_true, if_true, mul_zero]
    have hz : jsRound 0 = 0 := by
      unfold jsRound
      norm_num
    rw [hz]
    have hnc : 1 ≤ styleNumColors { range := some (m, m), palette := pal, numColors := nc } := by
      unfold styleNumColors
      cases nc with
      | none => norm_num
      | some k =>
        by_cases hk : k = 0
        · simp [hk]
        · simp only [hk, if_false]
          omega
    congr 1
    have h1 : (0 : ℤ)
        ≤ (styleNumColors { range := some (m, m), palette := pal, numColors := nc } : ℤ) - 1 := by
      omega
    rw [min_eq_right h1, max_self]

/-! ## Feature extraction — db.ts `fetchGeoJSONFeatures` with its helpers
from aequilibrae/utils.ts -/

/-- aequilibrae/utils.ts `ESSENTIAL_SPATIAL_COLUMNS`. -/
def ESSENTIAL_SPATIAL_COLUMNS : List String :=
  ["id", "name", "link_id", "node_id", "zone_id", "a_node", "b_node"]

/-- aequilibrae/utils.ts `GEOMETRY_COLUMN` / `isGeometryColumn`. -/
def isGeometryColumn (columnName : String) : Bool :=
  toLowerStr columnName == "geometry"

/-- A style-channel configuration as probed by `getUsedColumns`: either a
primitive (constant / array — no `column` field to find) or an object that
may or may not carry a `column` field. -/
inductive StyleVal where
  | prim (v : JsVal)
  | obj (column : Option String)

/-- The per-layer style object, one optional entry per `STYLE_PROPERTIES`
channel. -/
structure LayerStyleCfg where
  fillColor : Option StyleVal
  lineColor : Option StyleVal
  lineWidth : Option StyleVal
  pointRadius : Option StyleVal
  fillHeight : Option StyleVal
  filter : Option StyleVal

/-- A layer configuration: the style plus the optional raw SQL filter. -/
structure LayerCfg where
  style : Option LayerStyleCfg
  sqlFilter : Option String

/-- JS `Set.add`: append if not already present (insertion order kept). -/
def addUnique (l : List String) (c : String) : List String :=
  if c ∈ l then l else l ++ [c]

/-- The channels walked by `getUsedColumns`, in `STYLE_PROPERTIES` order. -/
def stylePropertyList (st : LayerStyleCfg) : List (Option StyleVal) :=
  [st.fillColor, st.lineColor, st.lineWidth, st.pointRadius, st.fillHeight, st.filter]

/-- aequilibrae/utils.ts `getUsedColumns`: collect `style[prop].column` for
every channel whose config is an object carrying a `column` field. -/
def getUsedColumns (lc : LayerCfg) : List String :=
  match lc.style with
  | none => []
  | some st =>
      (stylePropertyList st).foldl (fun used cfg =>
        match cfg with
        | some (StyleVal.obj (some col)) => addUnique used col
        | _ => used) []

/-- Column metadata as used by the extraction query builder. -/
structure ColumnInfo where
  name : String

structure TableMeta where
  name : String
  columns : List ColumnInfo

/-- SQL-injection denylist keywords of the `unsafePattern` regex. -/
def sqlDenyKeywords : List String :=
  ["ALTER", "DROP", "INSERT", "UPDATE", "DELETE", "REPLACE",
   "ATTACH", "DETACH", "VACUUM", "PRAGMA"]

/-- Regex `\w` (word character): ASCII letter, digit or underscore. -/
def isWordChar (c : Char) : Bool :=
  c.isAlpha || c.isDigit || c = '_'

/-- Case-insensitive match of keyword `kw` (given upper-case) at position `i`
of `hay`, with `\b` word boundaries on both sides. -/
def matchKeywordAt (hay : List Char) (kw : List Char) (i : ℕ) : Bool :=
  decide (i + kw.length ≤ hay.length)
  && (List.range kw.length).all
       (fun j => ((hay.get? (i + j)).map Char.toUpper) == kw.get? j)
  && (decide (i = 0) || !(isWordChar (hay.getD (i - 1) ' ')))
  && (decide (i + kw.length = hay.length) || !(isWordChar (hay.getD (i + kw.length) ' ')))

/-- Whether the character list contains two consecutive dashes. -/
def hasDoubleDash : List Char → Bool
  | '-' :: '-' :: _ => true
  | _ :: rest => hasDoubleDash rest
  | [] => false

/-- The `unsafePattern` test of db.ts lines 279-281:
a `;` anywhere, a `--` anywhere, or one of the denylist keywords as a whole
word, case-insensitively. -/
def containsUnsafe (s : String) : Bool :=
  let cs := s.toList
  cs.contains ';' || hasDoubleDash cs
  || sqlDenyKeywords.any (fun kw =>
       (List.range cs.length).any (fun i => matchKeywordAt cs kw.toList i))

/-- db.ts lines 271-285: the filter clause always requires
`geometry IS NOT NULL`; a non-blank user filter is first screened against
the denylist — a hit throws `Invalid sqlFilter in layer configuration` —
and otherwise AND-ed on. -/
def buildFilterClause (sqlFilter : Option String) : Except String String :=
  match sqlFilter with
  | some sf =>
      if 0 < (jsTrim sf).length then
        if containsUnsafe (jsTrim sf) then
          Except.error "Invalid sqlFilter in layer configuration"
        else
          Except.ok ("geometry IS NOT NULL" ++ " AND (" ++ jsTrim sf ++ ")")
      else Except.ok "geometry IS NOT NULL"
  | none => Except.ok "geometry IS NOT NULL"

/-- db.ts `queryTable` lines 77-79: the SQL string it executes. -/
def queryTableSql (tableName : String) (columns : Option (List String))
    (whereClause : Option String) : String :=
  let columnList :=
    match columns with
    | some cols => String.intercalate ", " (cols.map (fun c => "\"" ++ c ++ "\""))
    | none => "*"
  let whereCondition :=
    match whereClause with
    | some w => if w = "" then "" else " WHERE " ++ w
    | none => ""
  "SELECT " ++ columnList ++ " FROM \"" ++ tableName ++ "\"" ++ whereCondition ++ ";"

/-- The join lookup map of `getCachedJoinData`: `new Map(rows.map(row =>
[row[rightKey], row]))` — keys may be undefined/null here, later rows
override earlier ones. -/
def JoinLookup : Type := List (Option JsVal × Row)

def mkJoinLookup (rows : List Row) (rightKey : String) : JoinLookup :=
  rows.foldl (fun m row => setA m (getA row rightKey) row) []

/-- `${table}::${rightKey}::${neededColumn || '*'}::${filter || ''}`. -/
def orFalsy (o : Option String) (d : String) : String :=
  match o with
  | some s => if s = "" then d else s
  | none => d

def joinCacheKey (jc : JoinConfig) (neededColumn : Option String) : String :=
  jc.table ++ "::" ++ jc.rightKey ++ "::" ++ orFalsy neededColumn "*"
    ++ "::" ++ orFalsy jc.filter ""

/-- Column projection of the join query (db.ts lines 150-163). -/
def joinColumnsToQuery (jc : JoinConfig) (neededColumn : Option String) :
    Option (List String) :=
  match neededColumn with
  | some nc =>
      if nc = "" then
        -- falsy neededColumn: fall through to the joinConfig.columns branch
        match jc.columns with
        | some cols =>
            if cols.isEmpty then none
            else some (addUnique (cols.foldl addUnique []) jc.rightKey)
        | none => none
      else some (if nc = jc.rightKey then [jc.rightKey] else [jc.rightKey, nc])
  | none =>
      match jc.columns with
      | some cols =>
          if cols.isEmpty then none
          else some (addUnique (cols.foldl addUnique []) jc.rightKey)
      | none => none

/-- The module-level `joinDataCache`. -/
structure JoinCacheState where
  cache : List (String × JoinLookup)

/-- db.ts `getCachedJoinData` (lines 137-170): cache hit returns the stored
lookup without touching the database; a miss executes one projected query on
the join table, builds the lookup and stores it.  Returns the updated cache,
the lookup, and the list of executed queries. -/
def getCachedJoinData (exec : String → List Row) (jcs : JoinCacheState)
    (jc : JoinConfig) (neededColumn : Option String) :
    JoinCacheState × JoinLookup × List String :=
  let key := joinCacheKey jc neededColumn
  match getA jcs.cache key with
  | some cached => (jcs, cached, [])
  | none =>
      let q := queryTableSql jc.table (joinColumnsToQuery jc neededColumn) jc.filter
      let joinData := mkJoinLookup (exec q) jc.rightKey
      ({ cache := setA jcs.cache key joinData }, joinData, [q])

/-- JS truthiness of a row field. -/
def jsTruthy : Option JsVal → Bool
  | none => false
  | some .null => false
  | some (.num q) => q != 0
  | some (.str s) => s != ""
  | some (.bool b) => b

/-- db.ts `buildPropertiesFromRow` (lines 173-186): start from
`{_layer: layerName}` and copy every selected column whose row value is
neither null nor undefined, skipping the two synthetic geometry columns. -/
def buildPropertiesFromRow (selectedColumns : List ColumnInfo) (row : Row)
    (layerName : String) : Row :=
  selectedColumns.foldl (fun props col =>
    match getA row col.name with
    | some v =>
        if col.name ≠ "geojson_geom" ∧ col.name ≠ "geom_type" ∧ v ≠ JsVal.null then
          setA props col.name v
        else props
    | none => props) [("_layer", JsVal.str layerName)]

/-- The column filter of db.ts lines 244-251 / 313-321: drop the geometry
column; in minimal mode keep only styling columns and the essential
allow-list. -/
def selectedColumnsFor (table : TableMeta) (usedColumns : List String)
    (minimalProps : Bool) : List ColumnInfo :=
  if minimalProps ∧ usedColumns ≠ [] then
    table.columns.filter (fun c =>
      !(isGeometryColumn (toLowerStr c.name))
      && (usedColumns.contains c.name
          || ESSENTIAL_SPATIAL_COLUMNS.contains (toLowerStr c.name)))
  else
    table.columns.filter (fun c => !(isGeometryColumn c.name))

/-- The `columnNames` SQL fragment of db.ts lines 241-267 (with the
fall-back to all non-geometry columns when the minimal selection is
empty). -/
def columnNamesFor (table : TableMeta) (usedColumns : List String)
    (minimalProps : Bool) : String :=
  let allNonGeometry :=
    (table.columns.filter (fun c => !(isGeometryColumn c.name))).map
      (fun c => "\"" ++ c.name ++ "\"")
  if minimalProps ∧ usedColumns ≠ [] then
    let colsToSelect :=
      (table.columns.filter (fun c =>
        !(isGeometryColumn (toLowerStr c.name))
        && (usedColumns.contains c.name
            || ESSENTIAL_SPATIAL_COLUMNS.contains (toLowerStr c.name)))).map
        (fun c => "\"" ++ c.name ++ "\"")
    if colsToSelect.isEmpty then String.intercalate ", " allNonGeometry
    else String.intercalate ", " colsToSelect
  else String.intercalate ", " allNonGeometry

/-- A parsed (truthy) GeoJSON geometry object, as far as the pipeline
inspects it: its optional (truthy) `coordinates`. -/
structure Geom where
  coordinates : Option Coord

/-- The geometry slot of an extracted feature: a parsed GeoJSON object, or a
non-string truthy row value passed through unchanged by
`parseAndSimplifyGeometry`. -/
inductive GeomVal where
  | parsed (g : Geom)
  | raw (v : JsVal)

structure GeoFeature where
  geometry : GeomVal
  properties : Row

/-- db.ts `parseAndSimplifyGeometry` (lines 189-199): parse a string via
`JSON.parse` (modelled by the external `parseGeo`, `none` covering both a
throw and a falsy result), round coordinates when present and the precision
is below 15; a non-string value is passed through as-is. -/
def parseAndSimplifyGeometry (parseGeo : String → Option Geom) (v : JsVal)
    (coordPrecision : ℕ) : Option GeomVal :=
  match v with
  | .str s =>
      match parseGeo s with
      | none => none
      | some g =>
          if coordPrecision < 15 then
            match g.coordinates with
            | some cs =>
                some (.parsed { coordinates := some (simplifyCoordinates coordPrecision cs) })
            | none => some (.parsed g)
          else some (.parsed g)
  | v => some (.raw v)

/-- The join-merge of db.ts lines 344-347: a join column lands under its own
name when the properties object does not already have it; a clashing column
other than the join key lands under `table_column`. -/
def mergeJoinProps (props : Row) (joinRow : Row) (jc : JoinConfig) : Row :=
  joinRow.foldl (fun acc kv =>
    if (getA acc kv.1).isNone then setA acc kv.1 kv.2
    else if kv.1 ≠ jc.rightKey then setA acc (jc.table ++ "_" ++ kv.1) kv.2
    else acc) props

/-- The joined-data resolution of db.ts lines 230-231: use the supplied
lookup when given, else run `getCachedJoinData` when a join is configured.
Returns the updated join cache, the lookup, and the executed queries.  Note
this step never sees the layer's `sqlFilter`. -/
def resolveJoinData (exec : String → List Row) (jcs : JoinCacheState)
    (joinedData : Option JoinLookup) (joinConfig : Option JoinConfig) :
    JoinCacheState × Option JoinLookup × List String :=
  match joinedData with
  | some jd => (jcs, some jd, [])
  | none =>
      match joinConfig with
      | some jc =>
          let r := getCachedJoinData exec jcs jc none
          (r.1, some r.2.1, r.2.2)
      | none => (jcs, none, [])

structure FetchOpts where
  limit : Option ℤ
  coordinatePrecision : Option ℕ
  minimalProperties : Option Bool

/-- Result of a `fetchGeoJSONFeatures` run: the SQL strings executed against
the connection (in order), the outcome, and the updated join cache. -/
structure FetchResult where
  queries : List String
  out : Except String (List GeoFeature)
  joinCache : JoinCacheState

/-- db.ts `fetchGeoJSONFeatures` (lines 212-377).  `exec` is the opaque
`db.exec` row source; `parseGeo` the opaque `JSON.parse`.  Mirrors the
source: resolve join data (possibly querying the join table), compute the
column projection, validate and build the filter clause (throwing on a
denylist hit), build and run the single bounded layer query, then fold the
rows into features — skipping falsy geometry, merging join data (dropping
the row on an inner-join miss), and dropping rows whose geometry fails to
parse.  The cooperative batching (setTimeout between 5000-row batches) does
not change the produced list and is not represented. -/
def fetchGeoJSONFeatures (exec : String → List Row) (parseGeo : String → Option Geom)
    (jcs : JoinCacheState) (table : TableMeta) (layerName : String) (cfg : LayerCfg)
    (joinedData : Option JoinLookup) (joinConfig : Option JoinConfig)
    (opts : FetchOpts) : FetchResult :=
  let limit := opts.limit.getD 1000000
  let coordPrecision := opts.coordinatePrecision.getD 5
  let minimalProps := opts.minimalProperties.getD true
  let resolved := resolveJoinData exec jcs joinedData joinConfig
  let jcs1 := resolved.1
  let cachedJoinedData := resolved.2.1
  let joinQueries := resolved.2.2
  let usedColumns0 := getUsedColumns cfg
  let usedColumns :=
    match joinConfig with
    | some jc => addUnique usedColumns0 jc.leftKey
    | none => usedColumns0
  let columnNames := columnNamesFor table usedColumns minimalProps
  match buildFilterClause cfg.sqlFilter with
  | .error e => { queries := joinQueries, out := .error e, joinCache := jcs1 }
  | .ok filterClause =>
      let safeTableName := String.mk (replaceAllChar table.name.toList '\"' ['\"', '\"'])
      let safeLimit : ℤ := if 0 < limit then limit else 1000
      let query :=
        "\n    SELECT " ++ columnNames
          ++ ",\n           AsGeoJSON(geometry) as geojson_geom,\n           GeometryType(geometry) as geom_type\n    FROM \""
          ++ safeTableName ++ "\"\n    WHERE " ++ filterClause
          ++ "\n    LIMIT " ++ toString safeLimit ++ ";\n  "
      let rows := exec query
      let joinType :=
        match joinConfig with
        | some jc => jc.type
        | none => JoinType.left
      let selectedColumns := selectedColumnsFor table usedColumns minimalProps
      let features := rows.foldl (fun acc row =>
        if !(jsTruthy (getA row "geojson_geom")) then acc
        else
          let properties := buildPropertiesFromRow selectedColumns row layerName
          let merged : Option Row :=
            match cachedJoinedData, joinConfig with
            | some jd, some jc =>
                match getA jd (getA row jc.leftKey) with
                | some joinRow => some (mergeJoinProps properties joinRow jc)
                | none => if joinType = JoinType.inner then none else some properties
            | _, _ => some properties
          match merged with
          | none => acc
          | some props =>
              match getA row "geojson_geom" with
              | some gv =>
                  match parseAndSimplifyGeometry parseGeo gv coordPrecision with
                  | none => acc
                  | some geom => acc ++ [{ geometry := geom, properties := props }]
              | none => acc) []
      { queries := joinQueries ++ [query], out := .ok features, joinCache := jcs1 }

theorem containsUnsafe_length_pos (s : String) (h : containsUnsafe s = true) :
    0 < s.length := by
  by_contra hlen
  have h0 : s.length = 0 := by omega
  obtain ⟨data⟩ := s
  have hdata : data = [] := List.eq_nil_of_length_eq_zero h0
  subst hdata
  exact absurd h (by decide)

/-- C3 counterexample: `CREATE` is a DDL keyword, but it is not on the
code's denylist (`ALTER|DROP|INSERT|UPDATE|DELETE|REPLACE|ATTACH|DETACH|
VACUUM|PRAGMA`), so the layer filter "CREATE TABLE x" passes validation:
`fetchGeoJSONFeatures` does not throw — it succeeds — and the fragment is
concatenated verbatim into the executed SQL string. -/
theorem c3_sqlfilter_denylist_counterexample :
    (fetchGeoJSONFeatures (fun _ => []) (fun _ => none) ⟨[]⟩
        ⟨"links", [⟨"id"⟩, ⟨"geometry"⟩]⟩ "links"
        { style := none, sqlFilter := some "CREATE TABLE x" } none none
        ⟨none, none, none⟩).out
      = .ok []
    ∧ (fetchGeoJSONFeatures (fun _ => []) (fun _ => none) ⟨[]⟩
        ⟨"links", [⟨"id"⟩, ⟨"geometry"⟩]⟩ "links"
        { style := none, sqlFilter := some "CREATE TABLE x" } none none
        ⟨none, none, none⟩).queries
      = ["\n    SELECT \"id\",\n           AsGeoJSON(geometry) as geojson_geom,\n           GeometryType(geometry) as geom_type\n    FROM \"links\"\n    WHERE geometry IS NOT NULL AND (CREATE TABLE x)\n    LIMIT 1000000;\n  "] :=
  ⟨rfl, rfl⟩

/-- C3 (amended): for every layer configuration whose (trimmed) sqlFilter
matches the code's denylist — a `;`, a `--`, or one of ALTER, DROP, INSERT,
UPDATE, DELETE, REPLACE, ATTACH, DETACH, VACUUM, PRAGMA as a whole word,
case-insensitively — `fetchGeoJSONFeatures` throws the validation error
before the layer's feature query is executed; the only query that may have
executed beforehand is a configured join's lookup query, which is computed
by `resolveJoinData` without any access to the filter fragment, so the
unsafe fragment is never concatenated into an executed SQL string. -/
theorem c3_sqlfilter_denylist_amended (exec : String → List Row)
    (parseGeo : String → Option Geom) (jcs : JoinCacheState) (table : TableMeta)
    (layerName : String) (cfg : LayerCfg) (joinedData : Option JoinLookup)
    (joinConfig : Option JoinConfig) (opts : FetchOpts) (sf : String)
    (hsf : cfg.sqlFilter = some sf)
    (hdeny : containsUnsafe (jsTrim sf) = true) :
    (fetchGeoJSONFeatures exec parseGeo jcs table layerName cfg joinedData
        joinConfig opts).out
      = .error "Invalid sqlFilter in layer configuration"
    ∧ (fetchGeoJSONFeatures exec parseGeo jcs table layerName cfg joinedData
        joinConfig opts).queries
      = (resolveJoinData exec jcs joinedData joinConfig).2.2 := by
  have hpos : 0 < (jsTrim sf).length := containsUnsafe_length_pos _ hdeny
  have hf : buildFilterClause cfg.sqlFilter
      = .error "Invalid sqlFilter in layer configuration" := by
    rw [hsf]
    simp only [buildFilterClause]
    rw [if_pos hpos, if_pos hdeny]
  unfold fetchGeoJSONFeatures
  rw [hf]
  exact ⟨rfl, rfl⟩

/-- Witness for C3 (amended) at the spec's own example fragment
"; DROP TABLE x" on a join-free layer: the run errors and executes no
query at all. -/
theorem c3_sqlfilter_denylist_amended_witness :
    (fetchGeoJSONFeatures (fun _ => []) (fun _ => none) ⟨[]⟩
        ⟨"links", [⟨"id"⟩, ⟨"geometry"⟩]⟩ "links"
        { style := none, sqlFilter := some "; DROP TABLE x" } none none
        ⟨none, none, none⟩).out
      = .error "Invalid sqlFilter in layer configuration"
    ∧ (fetchGeoJSONFeatures (fun _ => []) (fun _ => none) ⟨[]⟩
        ⟨"links", [⟨"id"⟩, ⟨"geometry"⟩]⟩ "links"
        { style := none, sqlFilter := some "; DROP TABLE x" } none none
        ⟨none, none, none⟩).queries
      = [] :=
  ⟨(c3_sqlfilter_denylist_amended (fun _ => []) (fun _ => none) ⟨[]⟩
      ⟨"links", [⟨"id"⟩, ⟨"geometry"⟩]⟩ "links"
      { style := none, sqlFilter := some "; DROP TABLE x" } none none
      ⟨none, none, none⟩ "; DROP TABLE x" rfl rfl).1,
   ((c3_sqlfilter_denylist_amended (fun _ => []) (fun _ => none) ⟨[]⟩
      ⟨"links", [⟨"id"⟩, ⟨"geometry"⟩]⟩ "links"
      { style := none, sqlFilter := some "; DROP TABLE x" } none none
      ⟨none, none, none⟩ "; DROP TABLE x" rfl rfl).2).trans rfl⟩
